import Mathlib

/-!
Verification development for the cpp-ap compliance tooling
(scripts/check_licence.py, scripts/check_license.py, scripts/common.py,
scripts/check_version.py, scripts/format.py, scripts/postprocess_doxyhtml.py).

Shallow embedding conventions:
- a text file is modelled as its list of raw lines;
- Python string operations are modelled over the character list of the
  string (str.strip, str.split, str.startswith, str.endswith and friends),
  since only ASCII data is involved;
- the Python return-code variable of type Optional int is Option Int;
- external collaborators (the filesystem glob, the git diff process, the
  clang-format binary, the regular-expression engine) are parameters of the
  embedded functions, carrying exactly the data the scripts read from them.
-/

/-! ### Python string primitives (character-list based) -/

/-- Embedding of Python str.strip with no argument: remove whitespace from
both ends of the character list. -/
def pyStripChars (cs : List Char) : List Char :=
  ((cs.dropWhile Char.isWhitespace).reverse.dropWhile Char.isWhitespace).reverse

/-- Embedding of Python str.strip on strings. -/
def pyStrip (s : String) : String :=
  (pyStripChars s.data).asString

/-- Helper for splitting a character list at every occurrence of a separator
character; acc holds the reversed current chunk. -/
def splitCharAux (sep : Char) : List Char → List Char → List (List Char)
  | [], acc => [acc.reverse]
  | c :: cs, acc =>
    if c == sep then acc.reverse :: splitCharAux sep cs []
    else splitCharAux sep cs (c :: acc)

/-- Embedding of Python str.split with a one-character separator. -/
def pySplitChar (sep : Char) (s : String) : List String :=
  (splitCharAux sep s.data []).map List.asString

/-- Embedding of Python str.startswith. -/
def strStartsWith (s p : String) : Bool :=
  p.data.isPrefixOf s.data

/-! ### License validator (scripts/check_licence.py and scripts/check_license.py) -/

/-- The four possible outcomes of checking one file against the expected
licence header. In the scripts, compliant leaves the return code untouched,
and the other three call the set-return-code closure. -/
inductive LicenceVerdict where
  | compliant
  | tooShort
  | missing
  | incomplete
deriving DecidableEq

/-- Embedding of the per-line stripping in the check file helper:
lines = [line.strip() for line in f.readlines()]. -/
def strippedLines (rawLines : List String) : List String :=
  rawLines.map pyStrip

/-- Embedding of the classification performed by the check file helper of
check_licence in both scripts: too short when the file has fewer lines than
the expected header, otherwise classify by the per-position matches of the
stripped lines against the expected lines. -/
def checkFileVerdict (licenceInfo : List String) (rawLines : List String) : LicenceVerdict :=
  let lines := strippedLines rawLines
  let nLicenceLines := licenceInfo.length
  let nPotentialLicenceLines := min lines.length nLicenceLines
  if nPotentialLicenceLines < nLicenceLines then
    .tooShort
  else
    let matchingLines :=
      (List.range nLicenceLines).map (fun i => lines.getD i "" == licenceInfo.getD i "")
    if matchingLines.all id then .compliant
    else if matchingLines.any id then .incomplete
    else .missing

/-- ReturnCode.ok from the scripts. -/
def ReturnCode.ok : Int := 0

/-- ReturnCode.file_to_short from the scripts. -/
def ReturnCode.file_to_short : Int := -1

/-- ReturnCode.missing_licence from the scripts. -/
def ReturnCode.missing_licence : Int := -2

/-- ReturnCode.invalid_licence from the scripts. -/
def ReturnCode.invalid_licence : Int := -3

/-- The return code that the check file helper records for a verdict:
compliant records nothing. -/
def verdictCode : LicenceVerdict → Option Int
  | .compliant => none
  | .tooShort => some ReturnCode.file_to_short
  | .missing => some ReturnCode.missing_licence
  | .incomplete => some ReturnCode.invalid_licence

/-- Embedding of the set-return-code closure:
return_code = c if not return_code else return_code.
Both None and 0 are falsy in Python, hence the value test. -/
def setReturnCode (returnCode : Option Int) (c : Int) : Option Int :=
  match returnCode with
  | none => some c
  | some v => if v == 0 then some c else some v

/-- One iteration of the file loop of check_licence: the file is printed
(appended to the trace) and the check file helper possibly records a code. -/
def licenceStep (licenceInfo : List String) (acc : Option Int × List (List String))
    (file : List String) : Option Int × List (List String) :=
  (match verdictCode (checkFileVerdict licenceInfo file) with
   | none => acc.1
   | some c => setReturnCode acc.1 c,
   acc.2 ++ [file])

/-- Embedding of check_licence in both scripts: iterate over all files,
returning the accumulated return code and the trace of files processed. -/
def checkLicenceRun (licenceInfo : List String) (files : List (List String)) :
    Option Int × List (List String) :=
  files.foldl (licenceStep licenceInfo) (none, [])

/-- Stated from the spec wording: the error code of the first non-compliant
verdict encountered in iteration order, if any. -/
def firstNonCompliantCode (licenceInfo : List String) (files : List (List String)) : Option Int :=
  ((files.map (fun f => verdictCode (checkFileVerdict licenceInfo f))).filterMap id).head?

/-- Embedding of sys.exit applied to the returned code: sys.exit None exits
with status 0. -/
def pyExitCode (returnCode : Option Int) : Int :=
  match returnCode with
  | none => 0
  | some c => c

/-! ### File selector (scripts/common.py, find_files) -/

/-- A filesystem path as the scripts use it: its own string form and the
string form of its parent directory. -/
structure PyPath where
  parent : String
  name : String
deriving DecidableEq

/-- Embedding of find_files from scripts/common.py. The recursive glob of
the pathlib library is the external collaborator rglob, mapping a search
path and a pattern to the list of matching files. The Python set
comprehension is modelled by dedup on the filtered list. -/
def find_files (searchPaths : List String) (filePatterns : List String)
    (rglob : String → String → List PyPath) (excludePaths : List String) : List PyPath :=
  let matching_files :=
    searchPaths.flatMap (fun searchPath => filePatterns.flatMap (fun pat => rglob searchPath pat))
  (matching_files.filter
    (fun file => ! excludePaths.any (fun path => strStartsWith file.parent path))).dedup

/-! ### Modified-file filter (scripts/format.py, get_modified_files) -/

/-- The outcome of the external git diff subprocess: its return code and its
captured standard output. -/
structure ProcessResult where
  returncode : Int
  stdout : String
deriving DecidableEq

/-- The set of modified paths computed on the success path of
get_modified_files, intersected with the input file set. Sets are modelled
as duplicate-free lists: the set comprehension over the split standard
output is a dedup, and the set intersection is a membership filter. -/
def modifiedIntersection (gitResult : ProcessResult) (files : List String) : List String :=
  let modified_files := ((pySplitChar '\n' gitResult.stdout).filter (fun file => file ≠ "")).dedup
  modified_files.filter (fun f => files.contains f)

/-- Embedding of get_modified_files from scripts/format.py: the subprocess
run with check set raises on a non-zero return code, which the function
turns into a RuntimeError that aborts the operation. -/
def get_modified_files (gitResult : ProcessResult) (files : List String) :
    Except String (List String) :=
  if gitResult.returncode == 0 then
    Except.ok (modifiedIntersection gitResult files)
  else
    Except.error "Failed to retrieve the modified files."

/-! ### Format gate (scripts/format.py, run_clang_format) -/

/-- The flags appended to the clang-format command: a dry run with Werror in
check mode, in-place rewriting otherwise. -/
def clangFormatFlags (check : Bool) : List String :=
  if check then ["--dry-run", "--Werror"] else ["-i"]

/-- The full per-file clang-format command line built by run_clang_format. -/
def clangFormatCmd (file : String) (check : Bool) : List String :=
  ["clang-format-18", file] ++ clangFormatFlags check

/-- Modelled from the spec: the external clang-format binary rewrites the
file on disk exactly when the in-place flag is requested and no dry run is
requested; a dry-run invocation performs no write. -/
def clangFormatWrites (flags : List String) : Bool :=
  flags.contains "-i" && ! flags.contains "--dry-run"

/-- The state threaded through the run_clang_format loop: the accumulated
return code, the trace of files attempted, and the disk contents, modelled
as a map from path to contents. -/
structure FormatState where
  returnCode : Int
  attempted : List String
  disk : String → String

/-- One iteration of the run_clang_format loop: print the file, invoke the
external formatter (return code given by rc, reformatted contents by fmt),
and overwrite the accumulated return code on a non-zero result. -/
def formatStep (check : Bool) (rc : String → Int) (fmt : String → String)
    (st : FormatState) (file : String) : FormatState :=
  { returnCode := if rc file ≠ 0 then rc file else st.returnCode
    attempted := st.attempted ++ [file]
    disk :=
      if clangFormatWrites (clangFormatFlags check) then
        Function.update st.disk file (fmt (st.disk file))
      else st.disk }

/-- Embedding of run_clang_format from scripts/format.py. -/
def run_clang_format (files : List String) (check : Bool) (rc : String → Int)
    (fmt : String → String) (disk0 : String → String) : FormatState :=
  files.foldl (formatStep check rc fmt) { returnCode := 0, attempted := [], disk := disk0 }

/-- Stated from the spec wording: the last non-zero return code among the
per-file formatter invocations, if any. -/
def lastNonZeroCode (codes : List Int) : Option Int :=
  (codes.filter (fun c => c ≠ 0)).getLast?

/-! ### Version consistency checker (scripts/check_version.py) -/

/-- Embedding of get_cmake_version: the regular-expression search over the
manifest text is performed by the external re engine, whose result (the
captured version group, if any) is the parameter. A failed match raises a
ValueError naming the CMake manifest. -/
def get_cmake_version (matchResult : Option String) : Except String String :=
  match matchResult with
  | some v => Except.ok v
  | none => Except.error "[CMake] Could not find a valid project version"

/-- Embedding of get_doxy_version, as for get_cmake_version. -/
def get_doxy_version (matchResult : Option String) : Except String String :=
  match matchResult with
  | some v => Except.ok v
  | none => Except.error "[Doxygen] Could not find a valid PROJECT_NUMBER"

/-- Embedding of get_bazel_version, as for get_cmake_version. -/
def get_bazel_version (matchResult : Option String) : Except String String :=
  match matchResult with
  | some v => Except.ok v
  | none => Except.error "[Bazel] Could not find a valid module version"

/-- Embedding of all_equal from scripts/check_version.py: the cardinality of
the set of the items is one. The Python set is modelled by dedup. -/
def all_equal (items : List String) : Bool :=
  items.dedup.length == 1

/-- The observable outcome of the main function of check_version: an
extraction error naming the offending manifest (exit 1), a version mismatch
reporting every source and value pair (exit 1), or success printing the
common version (exit 0). -/
inductive VersionResult where
  | extractionError (source : String)
  | mismatch (pairs : List (String × String))
  | ok (version : String)
deriving DecidableEq

/-- Embedding of the main function of scripts/check_version.py. The dict
literal evaluates the three extractors in order, so the first raised error
aborts the whole check inside the try block. -/
def version_check_main (cmakeMatch doxyMatch bazelMatch : Option String) : VersionResult :=
  match get_cmake_version cmakeMatch with
  | .error _ => .extractionError "CMake"
  | .ok vCMake =>
    match get_doxy_version doxyMatch with
    | .error _ => .extractionError "Doxygen"
    | .ok vDoxy =>
      match get_bazel_version bazelMatch with
      | .error _ => .extractionError "Bazel"
      | .ok vBazel =>
        let project_versions := [("CMake", vCMake), ("Doxygen", vDoxy), ("Bazel", vBazel)]
        if all_equal (project_versions.map Prod.snd) then .ok vCMake
        else .mismatch project_versions

/-- The process exit status of check_version for each outcome: sys.exit 1 on
both error paths, falling off the end of main otherwise. -/
def versionExitCode : VersionResult → Int
  | .extractionError _ => 1
  | .mismatch _ => 1
  | .ok _ => 0

/-! ### Doc link postprocessor (scripts/postprocess_doxyhtml.py, encode_md_link) -/

/-- Embedding of the anchor split in encode_md_link: when the string
contains a hash, split at the first hash and keep the hash on the anchor
part; otherwise the anchor is empty. -/
def linkSplit (path_str : String) : List Char × List Char :=
  if path_str.data.contains '#' then
    match splitCharAux '#' path_str.data [] with
    | [] => (path_str.data, [])
    | filepath :: rest => (filepath, '#' :: (List.intercalate ['#'] rest))
  else (path_str.data, [])

/-- Embedding of str.removeprefix applied to the slash: drop one leading
slash character if present. -/
def removeLeadingSlash (cs : List Char) : List Char :=
  if ['/'].isPrefixOf cs then cs.drop 1 else cs

/-- Does the filepath part end in the markdown extension. -/
def endsWithMd (cs : List Char) : Bool :=
  List.isSuffixOf ['.', 'm', 'd'] cs

/-- Embedding of str.replace doubling every underscore in a part. -/
def doubleUnderscores : List Char → List Char
  | [] => []
  | c :: cs => if c == '_' then '_' :: '_' :: doubleUnderscores cs else c :: doubleUnderscores cs

/-- Embedding of encode_md_link from scripts/postprocess_doxyhtml.py. -/
def encode_md_link (path_str : String) : String :=
  let fa := linkSplit path_str
  let filepath := removeLeadingSlash fa.1
  if ! endsWithMd filepath then path_str
  else
    let stem := filepath.take (filepath.length - 3)
    let parts := splitCharAux '/' stem []
    let encoded_parts := parts.map doubleUnderscores
    let encoded_path := List.intercalate ['_', '2'] encoded_parts
    (['m', 'd', '_'] ++ encoded_path ++ ['.', 'h', 't', 'm', 'l'] ++ fa.2).asString

/-! ### Helper lemmas -/

/-- Every recorded licence return code is non-zero. -/
theorem verdictCode_ne_zero (v : LicenceVerdict) (c : Int) (h : verdictCode v = some c) :
    c ≠ 0 := by
  cases v <;>
    simp [verdictCode, ReturnCode.file_to_short, ReturnCode.missing_licence,
      ReturnCode.invalid_licence] at h <;>
  omega

/-- Unfolding the first-non-compliant code over a cons. -/
theorem firstNonCompliantCode_cons (licenceInfo : List String) (f : List String)
    (fs : List (List String)) :
    firstNonCompliantCode licenceInfo (f :: fs) =
      (verdictCode (checkFileVerdict licenceInfo f)).or (firstNonCompliantCode licenceInfo fs) := by
  unfold firstNonCompliantCode
  rw [List.map_cons, List.filterMap_cons]
  cases verdictCode (checkFileVerdict licenceInfo f) <;> simp

/-- The licence loop, started from any non-zero accumulated code, keeps that
code and otherwise records the first non-compliant code; it always appends
every file to the trace. -/
theorem licenceFold_eq (licenceInfo : List String) (files : List (List String))
    (rc0 : Option Int) (tr0 : List (List String)) (h0 : ∀ c, rc0 = some c → c ≠ 0) :
    files.foldl (licenceStep licenceInfo) (rc0, tr0) =
      (rc0.or (firstNonCompliantCode licenceInfo files), tr0 ++ files) := by
  induction files generalizing rc0 tr0 with
  | nil => simp [firstNonCompliantCode]
  | cons f fs ih =>
    rw [List.foldl_cons, firstNonCompliantCode_cons]
    rcases hv : verdictCode (checkFileVerdict licenceInfo f) with _ | c
    · have hstep : licenceStep licenceInfo (rc0, tr0) f = (rc0, tr0 ++ [f]) := by
        simp [licenceStep, hv]
      rw [hstep, ih rc0 (tr0 ++ [f]) h0]
      simp
    · have hc : c ≠ 0 := verdictCode_ne_zero _ _ hv
      rcases rc0 with _ | v
      · have hstep : licenceStep licenceInfo (none, tr0) f = (some c, tr0 ++ [f]) := by
          simp [licenceStep, hv, setReturnCode]
        rw [hstep, ih (some c) (tr0 ++ [f]) (by intro d hd; cases hd; exact hc)]
        simp [Option.or]
      · have hv0 : v ≠ 0 := h0 v rfl
        have hstep : licenceStep licenceInfo (some v, tr0) f = (some v, tr0 ++ [f]) := by
          simp [licenceStep, hv, setReturnCode, hv0]
        rw [hstep, ih (some v) (tr0 ++ [f]) h0]
        simp [Option.or]

/-- Shifting the default through the last element of a cons. -/
theorem getLastD_cons (a d : Int) (l : List Int) :
    (a :: l).getLast?.getD d = l.getLast?.getD a := by
  induction l generalizing a d with
  | nil => rfl
  | cons b m ih =>
    rw [List.getLast?_cons_cons, ih b d, ih b a]

/-- The format loop accumulates the last non-zero formatter return code. -/
theorem formatFold_returnCode (files : List String) (check : Bool) (rc : String → Int)
    (fmt : String → String) (st : FormatState) :
    (files.foldl (formatStep check rc fmt) st).returnCode =
      (lastNonZeroCode (files.map rc)).getD st.returnCode := by
  induction files generalizing st with
  | nil => simp [lastNonZeroCode]
  | cons f fs ih =>
    rw [List.foldl_cons, ih]
    by_cases h : rc f = 0 <;>
      simp [formatStep, lastNonZeroCode, List.filter_cons, h, getLastD_cons]

/-- The format loop appends every file to the trace of attempted files. -/
theorem formatFold_attempted (files : List String) (check : Bool) (rc : String → Int)
    (fmt : String → String) (st : FormatState) :
    (files.foldl (formatStep check rc fmt) st).attempted = st.attempted ++ files := by
  induction files generalizing st with
  | nil => simp
  | cons f fs ih =>
    rw [List.foldl_cons, ih]
    simp [formatStep]

/-- In check mode no iteration of the format loop touches the disk. -/
theorem formatFold_disk_dry (files : List String) (rc : String → Int)
    (fmt : String → String) (st : FormatState) :
    (files.foldl (formatStep true rc fmt) st).disk = st.disk := by
  induction files generalizing st with
  | nil => rfl
  | cons f fs ih =>
    rw [List.foldl_cons, ih]
    have hw : clangFormatWrites (clangFormatFlags true) = false := by decide
    simp [formatStep, hw]

/-- For three items, the length-one test on the deduplicated list is exactly
pairwise string equality. -/
theorem all_equal_three_iff (a b c : String) :
    all_equal [a, b, c] = true ↔ (a = b ∧ a = c) := by
  constructor
  · intro h
    have hlen : [a, b, c].dedup.length = 1 := by simpa [all_equal] using h
    obtain ⟨x, hx⟩ := List.length_eq_one.mp hlen
    have hmem : ∀ y ∈ [a, b, c], y = x := by
      intro y hy
      have : y ∈ [a, b, c].dedup := List.mem_dedup.mpr hy
      rw [hx] at this
      simpa using this
    have ha := hmem a (by simp)
    have hb := hmem b (by simp)
    have hc := hmem c (by simp)
    exact ⟨ha.trans hb.symm, ha.trans hc.symm⟩
  · rintro ⟨h1, h2⟩
    subst h1
    subst h2
    have hd : [a, a, a].dedup = [a] := by
      rw [List.dedup_cons_of_mem (by simp), List.dedup_cons_of_mem (by simp)]
      simp
    simp [all_equal, hd]

/-- The per-position match list is all true exactly when every stripped line
up to the header length equals the expected line. -/
theorem matchingLines_all_iff (licenceInfo rawLines : List String) :
    (((List.range licenceInfo.length).map
        (fun i => (strippedLines rawLines).getD i "" == licenceInfo.getD i "")).all id = true) ↔
      ∀ i < licenceInfo.length,
        (strippedLines rawLines).getD i "" = licenceInfo.getD i "" := by
  simp [List.all_eq_true]

/-- The per-position match list has some true element exactly when some
stripped line up to the header length equals the expected line. -/
theorem matchingLines_any_iff (licenceInfo rawLines : List String) :
    (((List.range licenceInfo.length).map
        (fun i => (strippedLines rawLines).getD i "" == licenceInfo.getD i "")).any id = true) ↔
      ∃ i < licenceInfo.length,
        (strippedLines rawLines).getD i "" = licenceInfo.getD i "" := by
  simp [List.any_eq_true]

/-- Lines beyond the expected header length never influence the verdict. -/
theorem checkFileVerdict_append (licenceInfo rawLines extra : List String)
    (hlen : licenceInfo.length ≤ rawLines.length) :
    checkFileVerdict licenceInfo (rawLines ++ extra) = checkFileVerdict licenceInfo rawLines := by
  simp only [checkFileVerdict, strippedLines, List.map_append, List.length_append,
    List.length_map]
  have h1 : min (rawLines.length + extra.length) licenceInfo.length = licenceInfo.length := by
    omega
  have h2 : min rawLines.length licenceInfo.length = licenceInfo.length := by omega
  rw [h1, h2, if_neg (lt_irrefl _), if_neg (lt_irrefl _)]
  have hmap : (List.range licenceInfo.length).map
      (fun i => (rawLines.map pyStrip ++ extra.map pyStrip).getD i "" == licenceInfo.getD i "") =
      (List.range licenceInfo.length).map
        (fun i => (rawLines.map pyStrip).getD i "" == licenceInfo.getD i "") := by
    apply List.map_congr_left
    intro i hi
    rw [List.getD_append]
    rw [List.length_map]
    exact lt_of_lt_of_le (List.mem_range.mp hi) hlen
  rw [hmap]

/-! ### Claim theorems -/

/-- C1: the licence validator assigns exactly one verdict per file, computed
over the stripped lines: too short when the file has fewer lines than the
expected header; compliant when all of the first N stripped lines equal the
expected lines positionally (and the verdict never depends on trailing
content after line N); missing when none are equal; incomplete when some
but not all are equal. -/
theorem licence_verdict_cases (licenceInfo rawLines : List String) :
    ((strippedLines rawLines).length < licenceInfo.length →
      checkFileVerdict licenceInfo rawLines = .tooShort) ∧
    (licenceInfo.length ≤ (strippedLines rawLines).length →
      (∀ i < licenceInfo.length,
          (strippedLines rawLines).getD i "" = licenceInfo.getD i "") →
      checkFileVerdict licenceInfo rawLines = .compliant) ∧
    (licenceInfo.length ≤ (strippedLines rawLines).length →
      0 < licenceInfo.length →
      (∀ i < licenceInfo.length,
          (strippedLines rawLines).getD i "" ≠ licenceInfo.getD i "") →
      checkFileVerdict licenceInfo rawLines = .missing) ∧
    (licenceInfo.length ≤ (strippedLines rawLines).length →
      (∃ i < licenceInfo.length,
          (strippedLines rawLines).getD i "" = licenceInfo.getD i "") →
      (∃ i < licenceInfo.length,
          (strippedLines rawLines).getD i "" ≠ licenceInfo.getD i "") →
      checkFileVerdict licenceInfo rawLines = .incomplete) ∧
    (licenceInfo.length ≤ rawLines.length →
      ∀ extra : List String,
        checkFileVerdict licenceInfo (rawLines ++ extra) = checkFileVerdict licenceInfo rawLines) := by
  refine ⟨?_, ?_, ?_, ?_, ?_⟩
  · intro hlt
    simp only [checkFileVerdict]
    rw [if_pos]
    omega
  · intro hge hall
    simp only [checkFileVerdict]
    rw [if_neg (by omega), if_pos ((matchingLines_all_iff licenceInfo rawLines).mpr hall)]
  · intro hge hpos hnone
    have hallf : ((List.range licenceInfo.length).map
        (fun i => (strippedLines rawLines).getD i "" == licenceInfo.getD i "")).all id = false := by
      cases hb : ((List.range licenceInfo.length).map
          (fun i => (strippedLines rawLines).getD i "" == licenceInfo.getD i "")).all id
      · rfl
      · exact absurd ((matchingLines_all_iff licenceInfo rawLines).mp hb 0 hpos) (hnone 0 hpos)
    have hanyf : ((List.range licenceInfo.length).map
        (fun i => (strippedLines rawLines).getD i "" == licenceInfo.getD i "")).any id = false := by
      cases hb : ((List.range licenceInfo.length).map
          (fun i => (strippedLines rawLines).getD i "" == licenceInfo.getD i "")).any id
      · rfl
      · obtain ⟨i, hi, heq⟩ := (matchingLines_any_iff licenceInfo rawLines).mp hb
        exact absurd heq (hnone i hi)
    simp only [checkFileVerdict]
    rw [if_neg (by omega), hallf, hanyf]
    rfl
  · intro hge hsome hnot
    have hallf : ((List.range licenceInfo.length).map
        (fun i => (strippedLines rawLines).getD i "" == licenceInfo.getD i "")).all id = false := by
      cases hb : ((List.range licenceInfo.length).map
          (fun i => (strippedLines rawLines).getD i "" == licenceInfo.getD i "")).all id
      · rfl
      · obtain ⟨i, hi, hne⟩ := hnot
        exact absurd ((matchingLines_all_iff licenceInfo rawLines).mp hb i hi) hne
    simp only [checkFileVerdict]
    rw [if_neg (by omega), hallf,
      if_pos ((matchingLines_any_iff licenceInfo rawLines).mpr hsome)]
    rfl
  · intro hlen extra
    exact checkFileVerdict_append licenceInfo rawLines extra hlen

/-- Witness for C1: a two-line header, a file matching at no position is
classified missing. -/
theorem licence_verdict_cases_witness :
    checkFileVerdict ["// a", "// b"] ["// x", "// y"] = .missing :=
  (licence_verdict_cases ["// a", "// b"] ["// x", "// y"]).2.2.1 (by decide) (by decide)
    (by decide)

/-- C2: the licence run returns the error code of the first non-compliant
verdict in iteration order (none when every file is compliant), and every
file is still processed and printed. -/
theorem check_licence_first_error (licenceInfo : List String) (files : List (List String)) :
    (checkLicenceRun licenceInfo files).1 = firstNonCompliantCode licenceInfo files ∧
    (checkLicenceRun licenceInfo files).2 = files := by
  have h := licenceFold_eq licenceInfo files none [] (by intro c hc; cases hc)
  rw [checkLicenceRun, h]
  simp

/-- C3: the format gate attempts every file regardless of prior failures,
and its exit code is the last non-zero formatter return code, or zero when
no invocation fails. -/
theorem run_clang_format_last_error (files : List String) (check : Bool)
    (rc : String → Int) (fmt : String → String) (disk0 : String → String) :
    (run_clang_format files check rc fmt disk0).returnCode =
      (lastNonZeroCode (files.map rc)).getD 0 ∧
    (run_clang_format files check rc fmt disk0).attempted = files := by
  unfold run_clang_format
  constructor
  · rw [formatFold_returnCode]
  · rw [formatFold_attempted]
    rfl

/-- C4: with all three versions extracted, the check succeeds exactly when
the three strings are equal as strings, and on mismatch it reports every
source and value pair and exits non-zero. -/
theorem version_check_string_equality (vCMake vDoxy vBazel : String) :
    (version_check_main (some vCMake) (some vDoxy) (some vBazel) = VersionResult.ok vCMake ↔
      (vCMake = vDoxy ∧ vCMake = vBazel)) ∧
    (¬ (vCMake = vDoxy ∧ vCMake = vBazel) →
      version_check_main (some vCMake) (some vDoxy) (some vBazel) =
        VersionResult.mismatch [("CMake", vCMake), ("Doxygen", vDoxy), ("Bazel", vBazel)] ∧
      versionExitCode (version_check_main (some vCMake) (some vDoxy) (some vBazel)) = 1) ∧
    ((vCMake = vDoxy ∧ vCMake = vBazel) →
      versionExitCode (version_check_main (some vCMake) (some vDoxy) (some vBazel)) = 0) := by
  have hiff := all_equal_three_iff vCMake vDoxy vBazel
  by_cases h : vCMake = vDoxy ∧ vCMake = vBazel
  · obtain ⟨h1, h2⟩ := h
    subst h1
    subst h2
    have hae : all_equal [vCMake, vCMake, vCMake] = true := hiff.mpr ⟨rfl, rfl⟩
    refine ⟨?_, fun hc => absurd ⟨rfl, rfl⟩ hc, fun _ => ?_⟩
    · simp [version_check_main, get_cmake_version, get_doxy_version, get_bazel_version, hae]
    · simp [version_check_main, get_cmake_version, get_doxy_version, get_bazel_version, hae,
        versionExitCode]
  · have hae : all_equal [vCMake, vDoxy, vBazel] = false := by
      cases hb : all_equal [vCMake, vDoxy, vBazel]
      · rfl
      · exact absurd (hiff.mp hb) h
    refine ⟨⟨fun hok => ?_, fun hc => absurd hc h⟩, fun _ => ⟨?_, ?_⟩, fun hc => absurd hc h⟩
    · simp [version_check_main, get_cmake_version, get_doxy_version, get_bazel_version, hae]
        at hok
    · simp [version_check_main, get_cmake_version, get_doxy_version, get_bazel_version, hae]
    · simp [version_check_main, get_cmake_version, get_doxy_version, get_bazel_version, hae,
        versionExitCode]

/-- Witness for C4: versions 2.5 and 2.5.0 are treated as different, the
mismatch reports all three pairs, and the exit code is one. -/
theorem version_check_string_equality_witness :
    version_check_main (some "2.5") (some "2.5") (some "2.5.0") =
      VersionResult.mismatch [("CMake", "2.5"), ("Doxygen", "2.5"), ("Bazel", "2.5.0")] ∧
    versionExitCode (version_check_main (some "2.5") (some "2.5") (some "2.5.0")) = 1 :=
  (version_check_string_equality "2.5" "2.5" "2.5.0").2.1 (by decide)

/-- C5: the file selector returns a duplicate-free list, and a file whose
parent directory starts with any exclusion path, by raw string comparison,
never appears in the result. -/
theorem find_files_nodup_excluded (searchPaths filePatterns excludePaths : List String)
    (rglob : String → String → List PyPath) :
    (find_files searchPaths filePatterns rglob excludePaths).Nodup ∧
    ∀ f ∈ find_files searchPaths filePatterns rglob excludePaths,
      ∀ p ∈ excludePaths, strStartsWith f.parent p = false := by
  constructor
  · exact List.nodup_dedup _
  · intro f hf p hp
    unfold find_files at hf
    rw [List.mem_dedup, List.mem_filter] at hf
    have h2 := hf.2
    simp only [Bool.not_eq_true', List.any_eq_false] at h2
    simpa using h2 p hp

/-- Witness for C5: a concrete glob result containing a duplicate and a file
under a directory named tests-extra, with tests excluded. -/
theorem find_files_nodup_excluded_witness :
    strStartsWith "include" "tests" = false :=
  (find_files_nodup_excluded ["include"] ["p"] ["tests"]
      (fun _ _ => [⟨"include", "a.hpp"⟩, ⟨"tests-extra", "b.hpp"⟩, ⟨"include", "a.hpp"⟩])).2
    ⟨"include", "a.hpp"⟩ (by decide) "tests" (by decide)

/-- C6: a failed extraction aborts the whole version check immediately with
an error naming the first failing manifest in evaluation order, with no
partial comparison, and the exit code is non-zero. -/
theorem version_check_extraction_abort (doxyMatch bazelMatch : Option String)
    (vCMake vDoxy : String) :
    version_check_main none doxyMatch bazelMatch = VersionResult.extractionError "CMake" ∧
    version_check_main (some vCMake) none bazelMatch = VersionResult.extractionError "Doxygen" ∧
    version_check_main (some vCMake) (some vDoxy) none = VersionResult.extractionError "Bazel" ∧
    versionExitCode (VersionResult.extractionError "CMake") = 1 ∧
    versionExitCode (VersionResult.extractionError "Doxygen") = 1 ∧
    versionExitCode (VersionResult.extractionError "Bazel") = 1 :=
  ⟨rfl, rfl, rfl, rfl, rfl, rfl⟩

/-- C7: the modified-file filter returns exactly the intersection of the
input file set with the paths named by the git diff output, and aborts with
an error, producing no file set, when the git command exits non-zero. -/
theorem get_modified_files_spec (gitResult : ProcessResult) (files : List String) :
    (gitResult.returncode = 0 →
      get_modified_files gitResult files = Except.ok (modifiedIntersection gitResult files) ∧
      (modifiedIntersection gitResult files).Nodup ∧
      (∀ f, f ∈ modifiedIntersection gitResult files ↔
        (f ∈ pySplitChar '\n' gitResult.stdout ∧ f ≠ "" ∧ f ∈ files))) ∧
    (gitResult.returncode ≠ 0 →
      get_modified_files gitResult files =
        Except.error "Failed to retrieve the modified files.") := by
  constructor
  · intro h0
    refine ⟨by simp [get_modified_files, h0], ?_, ?_⟩
    · exact List.Nodup.filter _ (List.nodup_dedup _)
    · intro f
      simp [modifiedIntersection, List.mem_filter, List.mem_dedup, and_assoc]
  · intro h0
    simp [get_modified_files, h0]

/-- Witness for C7: a successful git diff narrowing a two-file set. -/
theorem get_modified_files_spec_witness :
    get_modified_files ⟨0, "a\nb\n"⟩ ["b", "c"] =
      Except.ok (modifiedIntersection ⟨0, "a\nb\n"⟩ ["b", "c"]) ∧
    ("b" ∈ modifiedIntersection ⟨0, "a\nb\n"⟩ ["b", "c"] ↔
      ("b" ∈ pySplitChar '\n' "a\nb\n" ∧ "b" ≠ "" ∧ "b" ∈ ["b", "c"])) := by
  have h := (get_modified_files_spec ⟨0, "a\nb\n"⟩ ["b", "c"]).1 rfl
  exact ⟨h.1, h.2.2 "b"⟩

/-- C8: when every checked file is compliant no code is ever recorded and
the process exits with status zero. -/
theorem check_licence_all_compliant_exit_zero (licenceInfo : List String)
    (files : List (List String))
    (h : ∀ f ∈ files, checkFileVerdict licenceInfo f = LicenceVerdict.compliant) :
    pyExitCode (checkLicenceRun licenceInfo files).1 = 0 := by
  have hfold := licenceFold_eq licenceInfo files none [] (by intro c hc; cases hc)
  rw [checkLicenceRun, hfold]
  have hnil : (files.map (fun f => verdictCode (checkFileVerdict licenceInfo f))).filterMap id
      = [] := by
    rw [List.filterMap_eq_nil_iff]
    intro a ha
    rw [List.mem_map] at ha
    obtain ⟨f, hf, rfl⟩ := ha
    rw [h f hf]
    rfl
  unfold firstNonCompliantCode
  rw [hnil]
  rfl

/-- Witness for C8: two compliant files, one with extra surrounding
whitespace that stripping removes. -/
theorem check_licence_all_compliant_exit_zero_witness :
    pyExitCode (checkLicenceRun ["// a"] [["// a"], ["  // a  ", "int x;"]]).1 = 0 :=
  check_licence_all_compliant_exit_zero ["// a"] [["// a"], ["  // a  ", "int x;"]] (by decide)

/-- C9: in check mode the format gate requests a dry run, never the in-place
flag, and leaves the disk contents of every file unchanged regardless of the
per-file outcomes. -/
theorem run_clang_format_check_preserves_disk (files : List String) (rc : String → Int)
    (fmt : String → String) (disk0 : String → String) :
    clangFormatFlags true = ["--dry-run", "--Werror"] ∧
    clangFormatWrites (clangFormatFlags true) = false ∧
    (run_clang_format files true rc fmt disk0).disk = disk0 := by
  refine ⟨rfl, by decide, ?_⟩
  unfold run_clang_format
  rw [formatFold_disk_dry]

/-- C10: a link whose file part, after splitting off the anchor and removing
a leading slash, does not end in the markdown extension is returned
unchanged; only markdown links are rewritten to the md_ prefixed html form. -/
theorem encode_md_link_non_md_identity (path_str : String) :
    (endsWithMd (removeLeadingSlash (linkSplit path_str).1) = false →
      encode_md_link path_str = path_str) ∧
    (endsWithMd (removeLeadingSlash (linkSplit path_str).1) = true →
      ∃ rest, (encode_md_link path_str).data = 'm' :: 'd' :: '_' :: rest) := by
  constructor
  · intro h
    simp [encode_md_link, h]
  · intro h
    simp only [encode_md_link, h, Bool.not_true, Bool.false_eq_true, if_false]
    exact ⟨_, rfl⟩

/-- Witness for C10: a stylesheet link is returned unchanged. -/
theorem encode_md_link_non_md_identity_witness :
    encode_md_link "style.css#top" = "style.css#top" :=
  (encode_md_link_non_md_identity "style.css#top").1 (by decide)

/-! ### Concrete evaluation checks of the embedding -/

example : checkFileVerdict ["// a"] ["  // a  ", "int x;"] = .compliant := by decide
example : checkFileVerdict ["// a"] [] = .tooShort := by decide
example : checkFileVerdict ["// a", "// b"] ["// a", "zzz"] = .incomplete := by decide
example : checkFileVerdict ["// a", "// b"] ["x", "y"] = .missing := by decide
example : (checkLicenceRun ["// a"] [["x"], ["// a"], []]).1 = some (-2) := by decide
example : encode_md_link "docs/a_b.md#sec" = "md_docs_2a__b.html#sec" := by decide
example : encode_md_link "style.css" = "style.css" := by decide
example : encode_md_link "/README.md" = "md_README.html" := by decide
example : all_equal ["2.5", "2.5", "2.5.0"] = false := by decide
example : version_check_main (some "1.2.3") (some "1.2.3") (some "1.2.3") = .ok "1.2.3" := by decide
example : find_files ["include"] ["p"]
    (fun _ _ => [⟨"include", "a.hpp"⟩, ⟨"tests-extra", "b.hpp"⟩, ⟨"include", "a.hpp"⟩])
    ["tests"] = [⟨"include", "a.hpp"⟩] := by decide
example : get_modified_files ⟨0, "a\nb\n"⟩ ["b", "c"] = Except.ok ["b"] := by rfl
example : (run_clang_format ["f", "g"] false (fun f => if f == "f" then 1 else 0)
    id (fun _ => "x")).returnCode = 1 := by rfl
